import Mathlib

/-!
# Verification of the mapper codebase scanner

A shallow embedding of `skills/mapper/scripts/scan-codebase.py` (the
incremental codebase inventory engine) together with theorems settling the
frozen specification claims.

Modelling conventions:
* Byte strings are `List Nat` (each element a byte value `< 256` in use);
  decoded text is a `List Nat` of Unicode code points.
* `st_mtime` and `st_size` are modelled as `Nat`; the scanner only compares
  them for equality and renders them with `str`, so the numeric carrier is
  irrelevant to the claims.
* SHA-256 digests are abstracted as the exact byte stream that the Python
  code feeds to `hasher.update(...)` (rendered as a `String`); the real
  digest is a fixed function of that stream, so equality of streams
  corresponds to equality of digests and distinct streams to distinct
  digests (no known SHA-256 collisions).
* Python's `sorted` is stable; it is modelled by `List.insertionSort`,
  which is likewise stable.
* Fallible actions (`os.stat`, reading a file) are modelled by `Option`
  inputs, `none` meaning the action raised.
-/

namespace Scan

/-- Result of `path.stat()`: the two fields the scanner consults. -/
structure Stat where
  size : Nat
  mtime : Nat
deriving DecidableEq, Repr

/-- One value of the persisted cache's `files` mapping
(`{mtime, size, tokens, content_hash?}`); `content_hash := none` models an
absent key. -/
structure CacheEntry where
  mtime : Nat
  size : Nat
  tokens : Nat
  content_hash : Option String
deriving DecidableEq, Repr

/-- A scanned file record `{path, tokens, size_bytes, mtime, content_hash?}`;
`content_hash := none` models an absent key. -/
structure FileRecord where
  path : String
  tokens : Nat
  size_bytes : Nat
  mtime : Nat
  content_hash : Option String
deriving DecidableEq, Repr

/-- A record of the `skipped` list: `{path, reason}` plus the optional
`size_bytes` (reason `too_large`) or `tokens` (reason `too_many_tokens`)
extras. -/
structure SkipRecord where
  path : String
  reason : String
  size_bytes : Option Nat
  tokens : Option Nat
deriving DecidableEq, Repr

/-! ## UTF-8 (CPython's codec, as used via `bytes.decode`)

`utf8Next` parses one scalar value at the head of a byte list, enforcing
exactly what CPython's strict UTF-8 decoder enforces: no continuation-byte
leads, no overlong forms (leads `0xC0/0xC1` rejected, `0xE0`/`0xF0`
restricted), no surrogates (`0xED` restricted), nothing above `U+10FFFF`
(leads `0xF5..0xFF` rejected, `0xF4` restricted). -/

/-- Is `b` a UTF-8 continuation byte (`0x80..0xBF`)? -/
def utf8Cont (b : Nat) : Bool :=
  0x80 ≤ b && b < 0xC0

/-- Allowed range of the first continuation byte of a 3-byte sequence with
lead `b` (excludes overlongs for `0xE0` and surrogates for `0xED`). -/
def utf8Cont3 (b c : Nat) : Bool :=
  if b = 0xE0 then 0xA0 ≤ c && c < 0xC0
  else if b = 0xED then 0x80 ≤ c && c < 0xA0
  else utf8Cont c

/-- Allowed range of the first continuation byte of a 4-byte sequence with
lead `b` (excludes overlongs for `0xF0` and values above `U+10FFFF` for
`0xF4`). -/
def utf8Cont4 (b c : Nat) : Bool :=
  if b = 0xF0 then 0x90 ≤ c && c < 0xC0
  else if b = 0xF4 then 0x80 ≤ c && c < 0x90
  else utf8Cont c

/-- Parse one UTF-8 scalar at the head of `l`; returns the code point and the
number of bytes consumed, or `none` if no valid sequence starts here. -/
def utf8Next : List Nat → Option (Nat × Nat)
  | [] => none
  | b :: rest =>
    if b < 0x80 then some (b, 1)
    else if 0xC2 ≤ b && b < 0xE0 then
      match rest with
      | c1 :: _ =>
        if utf8Cont c1 then some ((b - 0xC0) * 64 + (c1 - 0x80), 2) else none
      | [] => none
    else if 0xE0 ≤ b && b < 0xF0 then
      match rest with
      | c1 :: c2 :: _ =>
        if utf8Cont3 b c1 && utf8Cont c2 then
          some ((b - 0xE0) * 4096 + (c1 - 0x80) * 64 + (c2 - 0x80), 3)
        else none
      | _ => none
    else if 0xF0 ≤ b && b < 0xF5 then
      match rest with
      | c1 :: c2 :: c3 :: _ =>
        if utf8Cont4 b c1 && utf8Cont c2 && utf8Cont c3 then
          some ((b - 0xF0) * 262144 + (c1 - 0x80) * 4096 + (c2 - 0x80) * 64
            + (c3 - 0x80), 4)
        else none
      | _ => none
    else none

/-- Strict decode (`data.decode("utf-8")`), fuelled by the list length:
`some` code points on success, `none` when the data is not valid UTF-8. -/
def utf8DecodeStrictAux : Nat → List Nat → Option (List Nat)
  | _, [] => some []
  | 0, _ :: _ => none
  | fuel + 1, b :: rest =>
    match utf8Next (b :: rest) with
    | some (cp, n) =>
      (utf8DecodeStrictAux fuel ((b :: rest).drop n)).map (fun cps => cp :: cps)
    | none => none

/-- `data.decode("utf-8")` under the strict (default) error handler. -/
def utf8DecodeStrict (data : List Nat) : Option (List Nat) :=
  utf8DecodeStrictAux data.length data

/-- Does `data` decode as strict UTF-8? -/
def utf8Valid (data : List Nat) : Bool :=
  (utf8DecodeStrict data).isSome

/-- Decode under `errors="ignore"`, fuelled by the list length: a valid
sequence is emitted and consumed, an invalid byte is dropped.  (CPython's
`ignore` handler drops the bytes of every invalid sequence without emitting
anything, which produces exactly these code points.) -/
def utf8DecodeIgnoreAux : Nat → List Nat → List Nat
  | _, [] => []
  | 0, _ :: _ => []
  | fuel + 1, b :: rest =>
    match utf8Next (b :: rest) with
    | some (cp, n) => cp :: utf8DecodeIgnoreAux fuel ((b :: rest).drop n)
    | none => utf8DecodeIgnoreAux fuel rest

/-- `data.decode("utf-8", errors="ignore")`. -/
def utf8DecodeIgnore (data : List Nat) : List Nat :=
  utf8DecodeIgnoreAux data.length data

/-- `decode_text`: try strict UTF-8, fall back to `errors="ignore"` on a
`UnicodeDecodeError`.  Total by construction. -/
def decode_text (data : List Nat) : List Nat :=
  (utf8DecodeStrict data).getD (utf8DecodeIgnore data)

/-! ## Tokenizer -/

/-- `heuristic_tokens(text)`: `max(1, len(text) // 4)`.  Note `len` of a
Python `str` counts code points of the decoded text, not bytes. -/
def heuristic_tokens (text : List Nat) : Nat :=
  max 1 (text.length / 4)

/-- `count_tokens(text, tokenizer, encoding_name)`.  The exact tiktoken
encoder is abstracted as `exact : List Nat → Option Nat`; `none` models the
encoder raising (then the heuristic is used, per the `except` clause). -/
def count_tokens (exact : List Nat → Option Nat) (tokenizer : String)
    (text : List Nat) : Nat :=
  if tokenizer ≠ "tiktoken" then heuristic_tokens text
  else
    match exact text with
    | some n => n
    | none => heuristic_tokens text

/-! ## Text Classifier (`is_text_file`) -/

/-- `TEXT_EXTENSIONS`, the known-text suffix deny/allow set (already
lowercase in the source). -/
def TEXT_EXTENSIONS : List String :=
  [".py", ".js", ".ts", ".jsx", ".tsx", ".vue", ".svelte", ".html", ".htm",
   ".css", ".scss", ".sass", ".less", ".json", ".yaml", ".yml", ".toml",
   ".xml", ".md", ".mdx", ".txt", ".rst", ".sh", ".bash", ".zsh", ".fish",
   ".ps1", ".bat", ".cmd", ".sql", ".graphql", ".gql", ".proto", ".go",
   ".rs", ".rb", ".php", ".java", ".kt", ".kts", ".scala", ".clj", ".cljs",
   ".edn", ".ex", ".exs", ".erl", ".hrl", ".hs", ".lhs", ".ml", ".mli",
   ".fs", ".fsx", ".fsi", ".cs", ".vb", ".swift", ".m", ".mm", ".h",
   ".hpp", ".c", ".cpp", ".cc", ".cxx", ".r", ".jl", ".lua", ".vim",
   ".el", ".lisp", ".scm", ".rkt", ".zig", ".nim", ".d", ".dart", ".v",
   ".sv", ".vhd", ".vhdl", ".tf", ".hcl", ".dockerfile", ".containerfile",
   ".makefile", ".cmake", ".gradle", ".groovy", ".rake", ".gemspec",
   ".podspec", ".cabal", ".nix", ".dhall", ".jsonc", ".json5", ".cson",
   ".ini", ".cfg", ".conf", ".config", ".env", ".env.example", ".env.local",
   ".env.development", ".env.production", ".gitignore", ".gitattributes",
   ".editorconfig", ".prettierrc", ".eslintrc", ".stylelintrc", ".babelrc",
   ".nvmrc", ".ruby-version", ".python-version", ".node-version",
   ".tool-versions"]

/-- `TEXT_NAMES`, the known-text bare filenames (already lowercase in the
source). -/
def TEXT_NAMES : List String :=
  ["readme", "license", "licence", "changelog", "authors", "contributors",
   "copying", "dockerfile", "containerfile", "makefile", "rakefile",
   "gemfile", "procfile", "brewfile", "vagrantfile", "justfile", "taskfile"]

/-- ASCII lowercasing of one character (`str.lower()` restricted to ASCII,
which covers every extension and filename the classifier compares against
its ASCII-only known-text sets). -/
def charToLower (ch : Char) : Char :=
  if 'A' ≤ ch && ch ≤ 'Z' then Char.ofNat (ch.toNat + 32) else ch

/-- `s.lower()` (ASCII). -/
def strToLower (s : String) : String :=
  String.mk (s.data.map charToLower)

/-- `is_text_file(path)`.  `suffix` and `name` are `path.suffix` / `path.name`
of the candidate; `sniff` is the result of reading the first (up to) 8192
bytes, `none` modelling any exception while opening or reading. -/
def is_text_file (suffix name : String) (sniff : Option (List Nat)) : Bool :=
  if TEXT_EXTENSIONS.contains (strToLower suffix) then true
  else if TEXT_NAMES.contains (strToLower name) then true
  else
    match sniff with
    | none => false
    | some chunk =>
      if chunk.contains 0 then false
      else utf8Valid chunk

/-! ## Hashing and aggregation

`hash_bytes` / `hash_data_fast` / `compute_scan_hash` / `module_digest`
return the byte stream fed to the SHA-256 hasher (see the header comment):
the program's digest is SHA-256 of that stream. -/

/-- `hash_bytes(data)`: SHA-256 over the raw bytes. -/
def hash_bytes (data : List Nat) : String :=
  "sha256:" ++ toString data

/-- `hash_data_fast(data)`: SHA-256 over `str(size)`, the first 4096 bytes,
and (when `size > 8192`) the last 4096 bytes. -/
def hash_data_fast (data : List Nat) : String :=
  "sha256:" ++ toString data.length ++ toString (data.take 4096)
    ++ toString (if 8192 < data.length then data.drop (data.length - 4096)
                 else ([] : List Nat))

/-- Python truthiness of an optional string value: `some ""` and `none` are
both falsy (`if entry.get("content_hash"): ...`). -/
def normalizeHash : Option String → Option String
  | none => none
  | some h => if h.isEmpty then none else some h

/-- The bytes `compute_scan_hash` feeds to the hasher for one record:
path, `str(size_bytes)`, `str(mtime)`, `str(tokens)`, and the content hash
when truthy. -/
def scanEntryBytes (e : FileRecord) : String :=
  e.path ++ toString e.size_bytes ++ toString e.mtime ++ toString e.tokens
    ++ ((normalizeHash e.content_hash).getD "")

/-- Code-point lexicographic comparison of character lists, i.e. Python's
`<=` on `str`. -/
def charListLe : List Char → List Char → Bool
  | [], _ => true
  | _ :: _, [] => false
  | a :: as, b :: bs => if a = b then charListLe as bs else decide (a < b)

/-- Python's `<=` on strings (code-point lexicographic). -/
def strLe (a b : String) : Bool :=
  charListLe a.data b.data

/-- The sort key relation of `sorted(files, key=lambda x: x["path"])`. -/
def pathLe (a b : FileRecord) : Prop :=
  strLe a.path b.path = true

instance : DecidableRel pathLe :=
  fun a b => inferInstanceAs (Decidable (_ = true))

/-- `sorted(files, key=lambda x: x["path"])` (stable). -/
def sortByPath (files : List FileRecord) : List FileRecord :=
  List.insertionSort pathLe files

/-- `compute_scan_hash(files)`: digest over all records sorted by path. -/
def compute_scan_hash (files : List FileRecord) : String :=
  String.join ((sortByPath files).map scanEntryBytes)

/-- `group_label(path, depth)`: the first `depth` slash-separated components
of the path, `"."` when empty. -/
def group_label (path : String) (depth : Nat) : String :=
  let key := String.intercalate "/" ((path.splitOn "/").take depth)
  if key = "" then "." else key

/-- The bytes `compute_module_hashes` feeds to the hasher for one record:
the path, then the content hash when truthy, otherwise
`str(size_bytes)`, `str(mtime)`, `str(tokens)`. -/
def moduleEntryBytes (e : FileRecord) : String :=
  e.path ++
    match normalizeHash e.content_hash with
    | some h => h
    | none => toString e.size_bytes ++ toString e.mtime ++ toString e.tokens

/-- The digest `compute_module_hashes` computes for one label: its group's
records (in file-list order, as `setdefault(...).append` collects them),
sorted by path, folded into the hasher. -/
def module_digest (files : List FileRecord) (depth : Nat) (label : String) :
    String :=
  String.join
    ((sortByPath (files.filter (fun e => group_label e.path depth == label))).map
      moduleEntryBytes)

/-- `compute_module_hashes(files, depth)` as the mapping it returns: a label
is mapped iff some record carries it, and then to its group digest. -/
def compute_module_hashes (files : List FileRecord) (depth : Nat)
    (label : String) : Option String :=
  if files.any (fun e => group_label e.path depth == label) then
    some (module_digest files depth label)
  else none

/-! ## Fingerprint cache -/

/-- `CACHE_VERSION = 1`. -/
def CACHE_VERSION : Nat := 1

/-- The current run's configuration, as threaded into `load_cache`. -/
structure RunConfig where
  encoding_name : String
  tokenizer : String
  max_file_tokens : Int
  max_file_size : Int
  hash_mode : String
  cache_compress : Bool
deriving DecidableEq, Repr

/-- The parsed JSON of a cache file; every field is optional because
`data.get(...)` yields `None` for a missing key. -/
structure CacheData where
  version : Option Nat
  encoding : Option String
  tokenizer : Option String
  max_file_tokens : Option Int
  max_file_size : Option Int
  hash_mode : Option String
  cache_compress : Option Bool
  files : Option (List (String × CacheEntry))
deriving DecidableEq, Repr

/-- What `load_cache` returns: the cache version and the `files` mapping
(as an association list, keys unique as dict keys are). -/
structure LoadedCache where
  version : Nat
  files : List (String × CacheEntry)
deriving DecidableEq, Repr

/-- `{"version": CACHE_VERSION, "files": {}}`. -/
def emptyCache : LoadedCache :=
  ⟨CACHE_VERSION, []⟩

/-- `load_cache(path, ...)`: `parsed = none` models a missing file or any
exception while opening/parsing; otherwise every header field must equal the
current run's configuration and `files` must be present, else the cache is
treated as empty. -/
def load_cache (parsed : Option CacheData) (cfg : RunConfig) : LoadedCache :=
  match parsed with
  | none => emptyCache
  | some d =>
    if d.version ≠ some CACHE_VERSION then emptyCache
    else if d.encoding ≠ some cfg.encoding_name then emptyCache
    else if d.tokenizer ≠ some cfg.tokenizer then emptyCache
    else if d.max_file_tokens ≠ some cfg.max_file_tokens then emptyCache
    else if d.max_file_size ≠ some cfg.max_file_size then emptyCache
    else if d.hash_mode ≠ some cfg.hash_mode then emptyCache
    else if d.cache_compress ≠ some cfg.cache_compress then emptyCache
    else
      match d.files with
      | none => emptyCache
      | some fs => ⟨CACHE_VERSION, fs⟩

/-- The `cache_hit` test of `scan_directory`: an entry exists for the path
and its stored `mtime` and `size` equal the on-disk current values. -/
def cacheHit (entry : Option CacheEntry) (st : Stat) : Bool :=
  match entry with
  | none => false
  | some e => e.mtime == st.mtime && e.size == st.size

/-- Python truthiness of `cache_entry.get("content_hash")`. -/
def hasStoredHash (entry : Option CacheEntry) : Bool :=
  match entry with
  | none => false
  | some e => (normalizeHash e.content_hash).isSome

/-- The `needs_read` condition of `scan_directory`:
`not cache_hit or hash_mode == "full" or
 (hash_mode != "mtime" and cache_entry and not cache_entry.get("content_hash"))`. -/
def needsRead (hash_mode : String) (entry : Option CacheEntry) (st : Stat) :
    Bool :=
  !cacheHit entry st || hash_mode == "full"
    || (hash_mode != "mtime" && entry.isSome && !hasStoredHash entry)

/-! ## Per-candidate pipeline and cache-miss tasks -/

/-- A candidate file as `scan_directory` sees it after the ignore /
changed-path / include / exclude filters: its relative path, the result of
`path.stat()` (`none` = raised), whether it is a symlink, its `Path.suffix`
and `Path.name`, and the classifier's sniff read. -/
structure Candidate where
  rel_path : String
  statRes : Option Stat
  isSymlink : Bool
  suffix : String
  name : String
  sniff : Option (List Nat)

/-- What becomes of one candidate inside `scan_directory`'s main loop: a
`skipped` record, a cache hit (yielding a `FileRecord` and the refreshed
new-cache entry), or a task dispatched to the worker pool (the only outcome
under which the file's content is read and tokenized). -/
inductive COutcome where
  | skip : SkipRecord → COutcome
  | hit : FileRecord → CacheEntry → COutcome
  | task : COutcome
deriving DecidableEq, Repr

/-- The per-candidate part of `scan_directory` (source lines 953–1012):
stat, symlink and size gates, text classification, then the cache-hit /
needs-read decision.  `cacheFiles` is the loaded cache's `files` mapping. -/
def processCandidate (c : Candidate) (follow_symlinks : Bool)
    (max_file_size : Nat) (hash_mode : String)
    (cacheFiles : List (String × CacheEntry)) : COutcome :=
  match c.statRes with
  | none => .skip ⟨c.rel_path, "stat_error", none, none⟩
  | some st =>
    if !follow_symlinks && c.isSymlink then
      .skip ⟨c.rel_path, "symlink", none, none⟩
    else if max_file_size < st.size then
      .skip ⟨c.rel_path, "too_large", some st.size, none⟩
    else if !is_text_file c.suffix c.name c.sniff then
      .skip ⟨c.rel_path, "binary", none, none⟩
    else
      let entry := cacheFiles.lookup c.rel_path
      if !needsRead hash_mode entry st && entry.isSome then
        match entry with
        | some e =>
          let ch := if hash_mode == "mtime" then none
                    else normalizeHash e.content_hash
          .hit ⟨c.rel_path, e.tokens, st.size, st.mtime, ch⟩
            ⟨st.mtime, st.size, e.tokens, ch⟩
        | none => .task
      else .task

/-- The self-contained result one worker returns for one task. -/
inductive TaskResult where
  | error : String → TaskResult
  | skipped : String → Nat → TaskResult
  | ok : Nat → Option String → TaskResult
deriving DecidableEq, Repr

/-- `process_file_task`: read the file (`data = none` models a read error),
reject NUL-containing data as binary, decode, count tokens, reject counts
above the ceiling, and hash per the hash mode. -/
def process_file_task (data : Option (List Nat)) (tokenizer : String)
    (exact : List Nat → Option Nat) (hash_mode : String)
    (max_file_tokens : Nat) : TaskResult :=
  match data with
  | none => .error "read_error"
  | some d =>
    if d.contains 0 then .skipped "binary" 0
    else
      let tokens := count_tokens exact tokenizer (decode_text d)
      if max_file_tokens < tokens then .skipped "too_many_tokens" tokens
      else
        .ok tokens
          (if hash_mode == "full" then some (hash_bytes d)
           else if hash_mode == "fast" then some (hash_data_fast d)
           else none)

/-- How `scan_directory` merges one worker result (source lines 1060–1096):
errors and skips become `SkipRecord`s (`too_many_tokens` carrying the
count), successes become a `FileRecord` plus the new cache entry, both built
from the task metadata captured at dispatch time. -/
def mergeTaskResult (rel_path : String) (meta : Stat) (res : TaskResult) :
    SkipRecord ⊕ (FileRecord × CacheEntry) :=
  match res with
  | .error msg => .inl ⟨rel_path, msg, none, none⟩
  | .skipped reason tokens =>
    .inl ⟨rel_path, reason, none,
      if reason == "too_many_tokens" then some tokens else none⟩
  | .ok tokens ch =>
    .inr (⟨rel_path, tokens, meta.size, meta.mtime, normalizeHash ch⟩,
      ⟨meta.mtime, meta.size, tokens, normalizeHash ch⟩)

/-! ## Entrypoints -/

/-- `ENTRYPOINT_PATTERNS`, in source order (tried in order; first match
wins). -/
def ENTRYPOINT_PATTERNS : List String :=
  ["main.*", "index.*", "app.*", "server.*", "cli.*", "cmd/*/main.go",
   "cmd/*/main.rs", "cmd/*/main.py", "bin/*", "src/main.*", "src/index.*",
   "src/app.*", "src/server.*"]

/-- `fnmatch.fnmatch` on POSIX: a whole-string glob match where `*` matches
any character sequence (slashes included) and `?` any single character.
(No pattern in `ENTRYPOINT_PATTERNS` uses bracket classes.)  Fuelled so the
kernel can evaluate it; each step consumes one fuel and shortens
`pattern.length + s.length`, so `globMatch` supplies enough. -/
def globMatchAux : Nat → List Char → List Char → Bool
  | 0, _, _ => false
  | _ + 1, [], [] => true
  | _ + 1, [], _ :: _ => false
  | fuel + 1, p :: ps, [] =>
    if p = '*' then globMatchAux fuel ps [] else false
  | fuel + 1, p :: ps, c :: cs =>
    if p = '*' then
      globMatchAux fuel ps (c :: cs) || globMatchAux fuel (p :: ps) cs
    else (p = '?' || p = c) && globMatchAux fuel ps cs

/-- Whole-string glob match of `s` against `pattern`. -/
def globMatch (pattern s : String) : Bool :=
  globMatchAux (pattern.length + s.length + 1) pattern.data s.data

/-- `fnmatch(path, pattern) or fnmatch(path, f"**/{pattern}")` as used by
`detect_entrypoints`. -/
def fnmatchOr (path pattern : String) : Bool :=
  globMatch pattern path || globMatch ("**/" ++ pattern) path

/-- A `detect_entrypoints` output record. -/
structure EPRecord where
  path : String
  tokens : Nat
  reason : String
deriving DecidableEq, Repr

/-- The candidate pass of `detect_entrypoints`: each file, matched against
the patterns in order, contributes one record for its first matching
pattern. -/
def entrypointCandidates (files : List FileRecord) : List EPRecord :=
  files.filterMap (fun f =>
    (ENTRYPOINT_PATTERNS.find? (fun p => fnmatchOr f.path p)).map
      (fun p => ⟨f.path, f.tokens, "pattern:" ++ p⟩))

/-- `sorted(entrypoints, key=lambda x: x.get("tokens", 0), reverse=True)`:
a stable descending sort by token count. -/
def sortTokensDesc (l : List EPRecord) : List EPRecord :=
  List.insertionSort (fun a b => b.tokens ≤ a.tokens) l

/-- `detect_entrypoints(files, limit)`. -/
def detect_entrypoints (files : List FileRecord) (limit : Int) :
    List EPRecord :=
  let eps := sortTokensDesc (entrypointCandidates files)
  if 0 < limit then eps.take limit.toNat else eps

/-! ## Module diffing (`scan_directory`, source lines 1114–1125) -/

/-- The `changed_modules` / `removed_modules` computation: `prev` and
`current` are the previous and current `module_hashes` dicts as association
lists in iteration order (keys unique).  A current label whose digest does
not equal `prev.get(label)` is appended to `changed_modules`; a previous
label absent from the current mapping is appended to `removed_modules`. -/
def diff_modules (prev current : List (String × String)) :
    List String × List String :=
  ((current.filter (fun p => prev.lookup p.1 ≠ some p.2)).map Prod.fst,
   (prev.filter (fun p => current.lookup p.1 = none)).map Prod.fst)

/-! ## Shared lemmas: the string order, stable sorting, permutations -/

theorem charListLe_total (as bs : List Char) :
    charListLe as bs = true ∨ charListLe bs as = true := by
  induction as generalizing bs with
  | nil => left; rfl
  | cons a as ih =>
    cases bs with
    | nil => right; rfl
    | cons b bs =>
      by_cases hab : a = b
      · subst hab
        rcases ih bs with h | h
        · left; simpa [charListLe] using h
        · right; simpa [charListLe] using h
      · rcases lt_or_gt_of_ne hab with h | h
        · left; simp [charListLe, hab, h]
        · right; simp [charListLe, Ne.symm hab, h]

theorem charListLe_trans (as bs cs : List Char) (h1 : charListLe as bs = true)
    (h2 : charListLe bs cs = true) : charListLe as cs = true := by
  induction as generalizing bs cs with
  | nil => rfl
  | cons a as ih =>
    cases bs with
    | nil => simp [charListLe] at h1
    | cons b bs =>
      cases cs with
      | nil => simp [charListLe] at h2
      | cons c cs =>
        by_cases hab : a = b
        · subst hab
          by_cases hbc : a = c
          · subst hbc
            simp only [charListLe, if_pos rfl] at h1 h2 ⊢
            exact ih bs cs h1 h2
          · simp only [charListLe, if_pos rfl, if_neg hbc] at h2 ⊢
            exact h2
        · by_cases hbc : b = c
          · subst hbc
            simp only [charListLe, if_neg hab] at h1 ⊢
            exact h1
          · simp only [charListLe, if_neg hab, if_neg hbc,
              decide_eq_true_iff] at h1 h2
            have hac : a < c := lt_trans h1 h2
            simp [charListLe, ne_of_lt hac, hac]

theorem charListLe_antisymm (as bs : List Char) (h1 : charListLe as bs = true)
    (h2 : charListLe bs as = true) : as = bs := by
  induction as generalizing bs with
  | nil =>
    cases bs with
    | nil => rfl
    | cons b bs => simp [charListLe] at h2
  | cons a as ih =>
    cases bs with
    | nil => simp [charListLe] at h1
    | cons b bs =>
      by_cases hab : a = b
      · subst hab
        simp only [charListLe, if_pos rfl] at h1 h2
        rw [ih bs h1 h2]
      · simp only [charListLe, if_neg hab, if_neg (Ne.symm hab),
          decide_eq_true_iff] at h1 h2
        exact absurd h2 (not_lt.mpr (le_of_lt h1))

theorem strLe_antisymm (x y : String) (h1 : strLe x y = true)
    (h2 : strLe y x = true) : x = y := by
  cases x with
  | mk xd =>
    cases y with
    | mk yd =>
      exact congrArg String.mk (charListLe_antisymm xd yd h1 h2)

instance : IsTotal FileRecord pathLe :=
  ⟨fun a b => charListLe_total a.path.data b.path.data⟩

instance : IsTrans FileRecord pathLe :=
  ⟨fun a b c => charListLe_trans a.path.data b.path.data c.path.data⟩

/-- The strict version of `pathLe`, used to show sorted permutations with
distinct paths coincide. -/
def pathLt (a b : FileRecord) : Prop :=
  pathLe a b ∧ a.path ≠ b.path

instance : IsAntisymm FileRecord pathLt :=
  ⟨fun a b h1 h2 => absurd (strLe_antisymm a.path b.path h1.1 h2.1) h1.2⟩

theorem sortByPath_perm (l : List FileRecord) : (sortByPath l).Perm l :=
  List.perm_insertionSort pathLe l

theorem sortByPath_sorted (l : List FileRecord) :
    List.Sorted pathLe (sortByPath l) :=
  List.sorted_insertionSort pathLe l

theorem sortByPath_sorted_strict (l : List FileRecord)
    (hn : (l.map FileRecord.path).Nodup) :
    List.Sorted pathLt (sortByPath l) := by
  have hs : List.Pairwise pathLe (sortByPath l) := sortByPath_sorted l
  have hnd : ((sortByPath l).map FileRecord.path).Nodup :=
    (((sortByPath_perm l).map FileRecord.path).nodup_iff).mpr hn
  have hne : List.Pairwise (fun a b : FileRecord => a.path ≠ b.path)
      (sortByPath l) := List.pairwise_map.mp hnd
  exact (hs.and hne).imp (fun h => h)

/-- Two permuted record lists with pairwise-distinct paths sort identically:
this is why the scanner's digests do not depend on enumeration order. -/
theorem sortByPath_eq_of_perm {l l' : List FileRecord} (h : l.Perm l')
    (hn : (l.map FileRecord.path).Nodup) : sortByPath l = sortByPath l' := by
  have hn' : (l'.map FileRecord.path).Nodup :=
    ((h.map FileRecord.path).nodup_iff).mp hn
  have hp : (sortByPath l).Perm (sortByPath l') :=
    (sortByPath_perm l).trans (h.trans (sortByPath_perm l').symm)
  exact List.eq_of_perm_of_sorted hp (sortByPath_sorted_strict l hn)
    (sortByPath_sorted_strict l' hn')

theorem perm_any {α : Type} {l l' : List α} (h : l.Perm l') (p : α → Bool) :
    l.any p = l'.any p := by
  induction h with
  | nil => rfl
  | cons x _ ih => simp [List.any_cons, ih]
  | swap x y l => cases hx : p x <;> cases hy : p y <;> simp [List.any_cons, hx, hy]
  | trans _ _ ih1 ih2 => exact ih1.trans ih2

theorem lookup_eq_none_iff {β : Type} (l : List (String × β)) (k : String) :
    l.lookup k = none ↔ ∀ d, (k, d) ∉ l := by
  induction l with
  | nil => simp
  | cons p es ih =>
    obtain ⟨a, b⟩ := p
    by_cases h : k = a
    · subst h
      refine ⟨fun hl => ?_, fun hall => ?_⟩
      · simp [List.lookup] at hl
      · exact absurd (List.mem_cons_self _ _) (hall b)
    · simp [List.lookup, beq_false_of_ne h, ih, h]

instance : IsTotal EPRecord (fun a b => b.tokens ≤ a.tokens) :=
  ⟨fun a b => le_total b.tokens a.tokens⟩

instance : IsTrans EPRecord (fun a b => b.tokens ≤ a.tokens) :=
  ⟨fun a b c h1 h2 => le_trans h2 h1⟩

/-! ## Claim C1 — cache hit test and re-read conditions -/

/-- C1, counterexample: under hash mode `full` a candidate with a matching
cache entry (a hit) that DOES carry a stored content hash still has
`needs_read = true` (the `hash_mode == "full"` disjunct), contradicting the
claim that under `full` a hit requires a content re-read if and only if the
entry lacks a stored hash. -/
theorem claim1_full_rereads_counterexample :
    cacheHit (some ⟨5, 7, 3, some "deadbeef"⟩) ⟨7, 5⟩ = true
    ∧ hasStoredHash (some ⟨5, 7, 3, some "deadbeef"⟩) = true
    ∧ needsRead "full" (some ⟨5, 7, 3, some "deadbeef"⟩) ⟨7, 5⟩ = true := by
  decide

/-- C1 (amended): the hit test is exactly "an entry exists whose stored
mtime and size equal the on-disk values"; under `mtime` the file is re-read
exactly on a miss (a hit never reads); under `fast` it is re-read exactly on
a miss or when a present entry lacks a (truthy) stored content hash; under
`full` every candidate is re-read, hit or not. -/
theorem claim1_hit_and_read_semantics :
    ∀ (entry : Option CacheEntry) (st : Stat),
      (cacheHit entry st = true ↔
        ∃ e, entry = some e ∧ e.mtime = st.mtime ∧ e.size = st.size)
      ∧ needsRead "mtime" entry st = !cacheHit entry st
      ∧ needsRead "fast" entry st = (!cacheHit entry st || !hasStoredHash entry)
      ∧ needsRead "full" entry st = true := by
  intro entry st
  refine ⟨?_, ?_, ?_, ?_⟩
  · cases entry with
    | none => simp [cacheHit]
    | some e =>
      simp only [cacheHit, Bool.and_eq_true, beq_iff_eq, Option.some.injEq]
      constructor
      · intro h
        exact ⟨e, rfl, h.1, h.2⟩
      · rintro ⟨e', he, h1, h2⟩
        cases he
        exact ⟨h1, h2⟩
  · cases entry <;> cases h : cacheHit _ st <;>
      simp [needsRead, h]
  · cases entry with
    | none => simp [needsRead, cacheHit]
    | some e =>
      cases h : cacheHit (some e) st <;>
        cases hh : hasStoredHash (some e) <;>
          simp [needsRead, h, hh]
  · cases entry <;> simp [needsRead]

/-! ## Claim C3 — cache header validation -/

/-- C3: `load_cache` returns the empty cache (current version, no entries)
whenever the cache file is missing or unparsable (`parsed = none`), or any
of the header fields `version`, `encoding`, `tokenizer`, `max_file_tokens`,
`max_file_size`, `hash_mode`, `cache_compress` differs from the current
run's configuration, or the `files` field is absent. -/
theorem claim3_header_mismatch_empty :
    ∀ (parsed : Option CacheData) (cfg : RunConfig),
      (parsed = none ∨ ∃ d, parsed = some d ∧
        (d.version ≠ some CACHE_VERSION
          ∨ d.encoding ≠ some cfg.encoding_name
          ∨ d.tokenizer ≠ some cfg.tokenizer
          ∨ d.max_file_tokens ≠ some cfg.max_file_tokens
          ∨ d.max_file_size ≠ some cfg.max_file_size
          ∨ d.hash_mode ≠ some cfg.hash_mode
          ∨ d.cache_compress ≠ some cfg.cache_compress
          ∨ d.files = none)) →
      load_cache parsed cfg = emptyCache := by
  rintro parsed cfg (rfl | ⟨d, rfl, hmis⟩)
  · rfl
  · show load_cache (some d) cfg = emptyCache
    simp only [load_cache]
    split_ifs with h1 h2 h3 h4 h5 h6 h7
    · rfl
    · rfl
    · rfl
    · rfl
    · rfl
    · rfl
    · rfl
    · cases hf : d.files with
      | none => rfl
      | some fs =>
        rcases hmis with h | h | h | h | h | h | h | h <;> simp_all

/-- C3 witness: a cache whose stored `hash_mode` differs from the run's is
discarded whole. -/
theorem claim3_header_mismatch_empty_witness :
    load_cache
      (some ⟨some 1, some "cl100k_base", some "tiktoken", some 50000,
        some 1000000, some "full", some false, some []⟩)
      ⟨"cl100k_base", "tiktoken", 50000, 1000000, "mtime", false⟩
      = emptyCache := by
  exact claim3_header_mismatch_empty _ _ (Or.inr ⟨_, rfl, by decide⟩)

/-! ## Claim C4 — heuristic token count -/

/-- C4, counterexample: the heuristic counts code points of the decoded
text, not bytes.  The 8-byte content `"éééé"` (UTF-8 `C3 A9` four times)
decodes to 4 characters, so the scanner returns `max(1, 4 // 4) = 1`
tokens, while `max(1, byteLength // 4) = max(1, 8 // 4) = 2`. -/
theorem claim4_bytes_vs_chars_counterexample :
    process_file_task (some [0xC3, 0xA9, 0xC3, 0xA9, 0xC3, 0xA9, 0xC3, 0xA9])
        "heuristic" (fun _ => none) "mtime" 50000 = .ok 1 none
    ∧ max 1 (([0xC3, 0xA9, 0xC3, 0xA9, 0xC3, 0xA9, 0xC3, 0xA9] :
        List Nat).length / 4) = 2 := by
  decide

/-- C4 (amended): in heuristic mode, or whenever the exact encoder raises,
the token count is `max(1, n // 4)` where `n` is the number of Unicode
characters of the decoded text (`len` of a Python `str`), not the content's
byte length. -/
theorem claim4_heuristic_token_count :
    ∀ (data : List Nat) (tokenizer : String) (exact : List Nat → Option Nat),
      tokenizer ≠ "tiktoken" ∨ exact (decode_text data) = none →
      count_tokens exact tokenizer (decode_text data) =
        max 1 ((decode_text data).length / 4) := by
  intro data tokenizer exact h
  rcases h with h | h
  · simp [count_tokens, h, heuristic_tokens]
  · by_cases ht : tokenizer = "tiktoken"
    · simp [count_tokens, ht, h, heuristic_tokens]
    · simp [count_tokens, ht, heuristic_tokens]

/-- C4 witness: the amended formula evaluated on the counterexample
content under the heuristic tokenizer. -/
theorem claim4_heuristic_token_count_witness :
    count_tokens (fun _ => none) "heuristic"
        (decode_text [0xC3, 0xA9, 0xC3, 0xA9, 0xC3, 0xA9, 0xC3, 0xA9]) =
      max 1 ((decode_text [0xC3, 0xA9, 0xC3, 0xA9, 0xC3, 0xA9, 0xC3, 0xA9]).length / 4) := by
  exact claim4_heuristic_token_count _ _ _ (Or.inl (by decide))

/-! ## Claim C5 — changed / removed module diffing -/

/-- C5, counterexample: a label present only in the CURRENT module hashes
(a new module) IS reported: `prev_hashes.get(label)` is `None`, which never
equals the current digest, so the label is appended to `changed_modules` —
contradicting the claim that a new module appears in neither list. -/
theorem claim5_new_module_counterexample :
    diff_modules [] [("lib", "h1")] = (["lib"], []) := by
  decide

/-- C5 (amended): a label is in `changed_modules` exactly when it is in the
current `module_hashes` and the previous mapping does not bind it to the
same digest — so both genuinely changed modules AND brand-new modules are
reported as changed; a label is in `removed_modules` exactly when it is in
the previous mapping and absent (as a key) from the current one. -/
theorem claim5_diff_modules_semantics :
    ∀ (prev current : List (String × String)) (label : String),
      (label ∈ (diff_modules prev current).1 ↔
        ∃ d, (label, d) ∈ current ∧ prev.lookup label ≠ some d)
      ∧ (label ∈ (diff_modules prev current).2 ↔
        ∃ d, (label, d) ∈ prev ∧ ∀ d', (label, d') ∉ current) := by
  intro prev current label
  constructor
  · simp only [diff_modules, List.mem_map, List.mem_filter,
      decide_eq_true_iff]
    constructor
    · rintro ⟨⟨l, d⟩, ⟨hmem, hp⟩, rfl⟩
      exact ⟨d, hmem, hp⟩
    · rintro ⟨d, hmem, hne⟩
      exact ⟨(label, d), ⟨hmem, hne⟩, rfl⟩
  · simp only [diff_modules, List.mem_map, List.mem_filter,
      decide_eq_true_iff]
    constructor
    · rintro ⟨⟨l, d⟩, ⟨hmem, hp⟩, rfl⟩
      exact ⟨d, hmem, (lookup_eq_none_iff current l).mp hp⟩
    · rintro ⟨d, hmem, hnone⟩
      exact ⟨(label, d), ⟨hmem, (lookup_eq_none_iff current label).mpr hnone⟩,
        rfl⟩

/-! ## Claim C6 — byte-size ceiling -/

/-- C6: a candidate that stats successfully, is not an excluded symlink, and
whose on-disk size exceeds `max_file_size` is recorded in `skipped` with
reason `too_large` (carrying the size), for EVERY value of the classifier
sniff and of the cache — in particular the outcome is neither a cache hit
nor a dispatched task, so the file's content is never read and no token
count is computed (the skip record's `tokens` field is `none`). -/
theorem claim6_too_large_skipped :
    ∀ (c : Candidate) (follow_symlinks : Bool) (max_file_size : Nat)
      (hash_mode : String) (cacheFiles : List (String × CacheEntry))
      (st : Stat),
      c.statRes = some st →
      (!follow_symlinks && c.isSymlink) = false →
      max_file_size < st.size →
      processCandidate c follow_symlinks max_file_size hash_mode cacheFiles =
        .skip ⟨c.rel_path, "too_large", some st.size, none⟩ := by
  intro c fs mfs hm cf st hstat hsym hsize
  unfold processCandidate
  rw [hstat]
  simp [hsym, hsize]

/-- C6 witness: a 2-megabyte `big.py` against the default 1-megabyte
ceiling, with a populated cache and a text sniff available. -/
theorem claim6_too_large_skipped_witness :
    processCandidate
        ⟨"big.py", some ⟨2000000, 77⟩, false, ".py", "big.py", some [104, 105]⟩
        false 1000000 "full" [("big.py", ⟨77, 2000000, 9, some "h"⟩)] =
      .skip ⟨"big.py", "too_large", some 2000000, none⟩ := by
  exact claim6_too_large_skipped
    ⟨"big.py", some ⟨2000000, 77⟩, false, ".py", "big.py", some [104, 105]⟩
    false 1000000 "full" [("big.py", ⟨77, 2000000, 9, some "h"⟩)]
    ⟨2000000, 77⟩ rfl (by decide) (by decide)

/-! ## Claim C7 — text classifier -/

/-- C7: the classifier's decision, for every suffix, bare name and sniff
outcome, equals: known-text extension (case-insensitive) OR known-text bare
name (case-insensitive) OR — only otherwise, by the priority of the
disjunction — the sniffed prefix exists (no I/O error), contains no NUL
byte, and decodes as strict UTF-8.  In particular a known extension or name
decides `text` independently of the sniff (no content read), a NUL byte or
a strict-UTF-8 failure decides `binary`, and an I/O error while sniffing
(`sniff = none`) decides `binary` rather than raising. -/
theorem claim7_classifier_semantics :
    ∀ (suffix name : String) (sniff : Option (List Nat)),
      is_text_file suffix name sniff =
        (TEXT_EXTENSIONS.contains (strToLower suffix)
          || TEXT_NAMES.contains (strToLower name)
          || match sniff with
             | none => false
             | some chunk => !chunk.contains 0 && utf8Valid chunk) := by
  intro s n sn
  unfold is_text_file
  cases he : TEXT_EXTENSIONS.contains (strToLower s) <;>
    cases hn : TEXT_NAMES.contains (strToLower n) <;>
      cases sn with
      | none => simp
      | some chunk => cases hc : chunk.contains 0 <;> simp [hc]

/-! ## Claim C2 — order independence of scan and module digests -/

/-- C2, counterexample: the claim's quantification over EVERY record list
fails when two records share a path: Python's `sorted` is stable, so the two
permutations below sort to themselves and feed different byte streams
(`"a000a100"` vs `"a100a000"`) to the SHA-256 hasher, yielding different
digests even though the lists are permutations of each other (the tuple
multiset is the same). -/
theorem claim2_duplicate_path_counterexample :
    ([⟨"a", 0, 0, 0, none⟩, ⟨"a", 0, 1, 0, none⟩] : List FileRecord).Perm
        [⟨"a", 0, 1, 0, none⟩, ⟨"a", 0, 0, 0, none⟩]
    ∧ compute_scan_hash [⟨"a", 0, 0, 0, none⟩, ⟨"a", 0, 1, 0, none⟩] ≠
        compute_scan_hash [⟨"a", 0, 1, 0, none⟩, ⟨"a", 0, 0, 0, none⟩] := by
  constructor
  · decide
  · decide

/-- C2 (amended): for record lists whose paths are pairwise distinct —
which holds for every list `scan_directory` actually produces, since each
admitted relative path yields at most one record — `compute_scan_hash` and
the `compute_module_hashes` mapping are invariant under every permutation
of the records: they depend only on the set of
(path, size, mtime, tokens, content_hash) tuples, not on enumeration or
worker-completion order. -/
theorem claim2_order_invariance :
    ∀ (files files' : List FileRecord) (depth : Nat) (label : String),
      files.Perm files' → (files.map FileRecord.path).Nodup →
      compute_scan_hash files = compute_scan_hash files'
      ∧ compute_module_hashes files depth label =
          compute_module_hashes files' depth label := by
  intro files files' depth label hp hn
  constructor
  · unfold compute_scan_hash
    rw [sortByPath_eq_of_perm hp hn]
  · have hpf := hp.filter (fun e => group_label e.path depth == label)
    have hnf : ((files.filter
        (fun e => group_label e.path depth == label)).map
          FileRecord.path).Nodup :=
      List.Nodup.sublist ((List.filter_sublist files).map FileRecord.path) hn
    unfold compute_module_hashes module_digest
    rw [perm_any hp, sortByPath_eq_of_perm hpf hnf]

/-- C2 witness: a two-record list and its reversal produce the same scan
digest and the same module digest for label `"src"`. -/
theorem claim2_order_invariance_witness :
    ([⟨"src/a.py", 3, 10, 5, none⟩, ⟨"b.py", 4, 20, 6, some "h"⟩] :
        List FileRecord).Perm
      [⟨"b.py", 4, 20, 6, some "h"⟩, ⟨"src/a.py", 3, 10, 5, none⟩]
    ∧ (([⟨"src/a.py", 3, 10, 5, none⟩, ⟨"b.py", 4, 20, 6, some "h"⟩] :
        List FileRecord).map FileRecord.path).Nodup
    ∧ compute_scan_hash
        [⟨"src/a.py", 3, 10, 5, none⟩, ⟨"b.py", 4, 20, 6, some "h"⟩] =
      compute_scan_hash
        [⟨"b.py", 4, 20, 6, some "h"⟩, ⟨"src/a.py", 3, 10, 5, none⟩]
    ∧ compute_module_hashes
        [⟨"src/a.py", 3, 10, 5, none⟩, ⟨"b.py", 4, 20, 6, some "h"⟩] 1 "src" =
      compute_module_hashes
        [⟨"b.py", 4, 20, 6, some "h"⟩, ⟨"src/a.py", 3, 10, 5, none⟩] 1 "src" := by
  refine ⟨by decide, by decide, ?_⟩
  exact claim2_order_invariance
    [⟨"src/a.py", 3, 10, 5, none⟩, ⟨"b.py", 4, 20, 6, some "h"⟩]
    [⟨"b.py", 4, 20, 6, some "h"⟩, ⟨"src/a.py", 3, 10, 5, none⟩]
    1 "src" (by decide) (by decide)

/-! ## Claim C8 — entrypoint detection -/

/-- C8: (i) the path `cmd/worker/main.go` does match the glob pattern
`cmd/*/main.go`; (ii) every input record with that path contributes an
entrypoint record (with its token count) to the detector's pre-truncation
list, so it appears in `entrypoints` whenever the limit permits — the first
pattern it matches in source order is in fact `main.*`, via the `**/`
variant, so that is the reason recorded; (iii) for every input list the
result is sorted by token count descending; and (iv) for every positive
limit the result is exactly the sorted list truncated to `limit` (a
non-positive limit disables truncation). -/
theorem claim8_entrypoint_matching :
    ∀ (files : List FileRecord) (limit : Int) (f : FileRecord),
      globMatch "cmd/*/main.go" "cmd/worker/main.go" = true
      ∧ (f ∈ files → f.path = "cmd/worker/main.go" →
          ∃ e ∈ sortTokensDesc (entrypointCandidates files),
            e.path = f.path ∧ e.tokens = f.tokens)
      ∧ List.Sorted (fun a b : EPRecord => b.tokens ≤ a.tokens)
          (detect_entrypoints files limit)
      ∧ (0 < limit →
          detect_entrypoints files limit =
            (sortTokensDesc (entrypointCandidates files)).take limit.toNat) := by
  intro files limit f
  have hsorted : List.Sorted (fun a b : EPRecord => b.tokens ≤ a.tokens)
      (sortTokensDesc (entrypointCandidates files)) :=
    List.sorted_insertionSort _ _
  refine ⟨by decide, ?_, ?_, ?_⟩
  · intro hf hpath
    have hfind : ENTRYPOINT_PATTERNS.find?
        (fun p => fnmatchOr "cmd/worker/main.go" p) = some "main.*" := by
      decide
    refine ⟨⟨f.path, f.tokens, "pattern:" ++ "main.*"⟩, ?_, rfl, rfl⟩
    apply (List.mem_insertionSort _).mpr
    apply List.mem_filterMap.mpr
    refine ⟨f, hf, ?_⟩
    rw [hpath, hfind]
    rfl
  · unfold detect_entrypoints
    split_ifs
    · exact List.Pairwise.sublist (List.take_sublist _ _) hsorted
    · exact hsorted
  · intro hpos
    simp [detect_entrypoints, hpos]

/-- C8 witness: a concrete scan containing `cmd/worker/main.go` plus a
larger `main.py`; the detector keeps both, sorted by tokens descending and
truncated to the limit 5. -/
theorem claim8_entrypoint_matching_witness :
    globMatch "cmd/*/main.go" "cmd/worker/main.go" = true
    ∧ (∃ e ∈ sortTokensDesc (entrypointCandidates
          [⟨"cmd/worker/main.go", 7, 10, 20, none⟩,
           ⟨"main.py", 50, 11, 21, none⟩]),
        e.path = "cmd/worker/main.go" ∧ e.tokens = 7)
    ∧ List.Sorted (fun a b : EPRecord => b.tokens ≤ a.tokens)
        (detect_entrypoints
          [⟨"cmd/worker/main.go", 7, 10, 20, none⟩,
           ⟨"main.py", 50, 11, 21, none⟩] 5)
    ∧ detect_entrypoints
          [⟨"cmd/worker/main.go", 7, 10, 20, none⟩,
           ⟨"main.py", 50, 11, 21, none⟩] 5 =
        (sortTokensDesc (entrypointCandidates
          [⟨"cmd/worker/main.go", 7, 10, 20, none⟩,
           ⟨"main.py", 50, 11, 21, none⟩])).take (5 : Int).toNat := by
  have h := claim8_entrypoint_matching
    [⟨"cmd/worker/main.go", 7, 10, 20, none⟩, ⟨"main.py", 50, 11, 21, none⟩]
    5 ⟨"cmd/worker/main.go", 7, 10, 20, none⟩
  exact ⟨h.1, h.2.1 (by decide) rfl, h.2.2.1, h.2.2.2 (by decide)⟩

/-! ## Claim C9 — no content hashes under hash mode `mtime` -/

/-- C9: under hash mode `mtime`, neither path into the result carries a
content hash.  A cache hit discards any hash stored in the loaded entry
(the record and the refreshed cache entry both get `content_hash = none`),
and a cache-miss task result computes a hash only under `full`/`fast`, so
the merged record and its cache entry also get `none`. -/
theorem claim9_mtime_no_content_hash :
    ∀ (c : Candidate) (follow_symlinks : Bool) (max_file_size : Nat)
      (cacheFiles : List (String × CacheEntry)) (r : FileRecord)
      (e : CacheEntry),
      (processCandidate c follow_symlinks max_file_size "mtime" cacheFiles =
          .hit r e →
        r.content_hash = none ∧ e.content_hash = none)
      ∧ ∀ (rel : String) (meta : Stat) (data : Option (List Nat))
          (tokenizer : String) (exact : List Nat → Option Nat)
          (max_file_tokens : Nat) (r' : FileRecord) (e' : CacheEntry),
          mergeTaskResult rel meta
              (process_file_task data tokenizer exact "mtime"
                max_file_tokens) = .inr (r', e') →
          r'.content_hash = none ∧ e'.content_hash = none := by
  intro c fs mfs cf r e
  constructor
  · intro h
    unfold processCandidate at h
    cases hst : c.statRes <;> rw [hst] at h
    · exact COutcome.noConfusion h
    case some st =>
      rcases hent : (cf.lookup c.rel_path) with _ | e0 <;> rw [hent] at h <;>
        by_cases h1 : (!fs && c.isSymlink) = true <;>
        by_cases h2 : mfs < st.size <;>
        by_cases h3 : is_text_file c.suffix c.name c.sniff = true <;>
        by_cases h4 : needsRead "mtime" (cf.lookup c.rel_path) st = false <;>
        simp_all
      rcases h with ⟨hr, he⟩
      rw [← hr, ← he]
      exact ⟨rfl, rfl⟩
  · intro rel meta data tokenizer exact maxT r' e' h
    cases data with
    | none => simp [process_file_task, mergeTaskResult] at h
    | some d =>
      simp only [process_file_task] at h
      split_ifs at h <;> simp_all [mergeTaskResult, normalizeHash]
      rcases h with ⟨hr, he⟩
      rw [← hr, ← he]
      exact ⟨rfl, rfl⟩

/-- C9 witness: a hit whose loaded cache entry DOES carry a stored hash
still yields a hash-free record and cache entry under `mtime`, and a
cache-miss task merge likewise. -/
theorem claim9_mtime_no_content_hash_witness :
    ((⟨"x.py", 3, 4, 9, none⟩ : FileRecord).content_hash = none
      ∧ (⟨9, 4, 3, none⟩ : CacheEntry).content_hash = none)
    ∧ ((⟨"y.py", 1, 7, 2, none⟩ : FileRecord).content_hash = none
      ∧ (⟨2, 7, 1, none⟩ : CacheEntry).content_hash = none) := by
  have h := claim9_mtime_no_content_hash
    ⟨"x.py", some ⟨4, 9⟩, false, ".py", "x.py", none⟩ false 100
    [("x.py", ⟨9, 4, 3, some "stored"⟩)] ⟨"x.py", 3, 4, 9, none⟩
    ⟨9, 4, 3, none⟩
  exact ⟨h.1 (by decide),
    h.2 "y.py" ⟨7, 2⟩ (some [104, 105]) "heuristic" (fun _ => none) 100
      ⟨"y.py", 1, 7, 2, none⟩ ⟨2, 7, 1, none⟩ (by decide)⟩

/-! ## Claim C10 — totality of text decoding -/

/-- C10, counterexample: decoding is indeed total, but a text-admitted,
NUL-free, invalid-UTF-8 file is NOT always recorded as a FileRecord: if its
token count exceeds `max_file_tokens` it is skipped as `too_many_tokens`.
Here the 16-byte content (eight `0xFF` bytes then `"abcdefgh"`) decodes to
8 characters = 2 heuristic tokens, above the (configurable) ceiling 1. -/
theorem claim10_token_ceiling_counterexample :
    utf8Valid (List.replicate 8 0xFF ++ [97, 98, 99, 100, 101, 102, 103, 104])
        = false
    ∧ (List.replicate 8 0xFF ++
        [97, 98, 99, 100, 101, 102, 103, 104]).contains 0 = false
    ∧ is_text_file ".py" "x.py" none = true
    ∧ process_file_task
        (some (List.replicate 8 0xFF ++ [97, 98, 99, 100, 101, 102, 103, 104]))
        "heuristic" (fun _ => none) "mtime" 1 = .skipped "too_many_tokens" 2 := by
  decide

/-- C10 (amended): `decode_text` is total — on invalid UTF-8 it falls back
to the `errors="ignore"` decode, which drops the offending bytes — and a
readable file whose content contains no NUL byte is always tokenized and,
provided its token count does not exceed `max_file_tokens`, merged as a
FileRecord carrying exactly that count (never skipped or errored on
account of the invalid encoding). -/
theorem claim10_decode_total_records_file :
    ∀ (data : List Nat) (tokenizer : String) (exact : List Nat → Option Nat)
      (hash_mode : String) (max_file_tokens : Nat) (rel : String)
      (meta : Stat),
      (utf8Valid data = false → decode_text data = utf8DecodeIgnore data)
      ∧ (data.contains 0 = false →
          count_tokens exact tokenizer (decode_text data) ≤ max_file_tokens →
          ∃ rec entry,
            mergeTaskResult rel meta
                (process_file_task (some data) tokenizer exact hash_mode
                  max_file_tokens) = .inr (rec, entry)
            ∧ rec.tokens = count_tokens exact tokenizer (decode_text data)) := by
  intro data tokenizer exact hm maxT rel meta
  constructor
  · intro hinvalid
    unfold decode_text utf8Valid at *
    cases hs : utf8DecodeStrict data with
    | none => simp [hs]
    | some cps => rw [hs] at hinvalid; simp at hinvalid
  · intro hnul hle
    simp only [process_file_task, hnul, Bool.false_eq_true, if_false,
      if_neg (Nat.not_lt.mpr hle)]
    exact ⟨_, _, rfl, rfl⟩

/-- C10 witness: the 4-byte content `FF 61 62 63` is invalid UTF-8, NUL
free, decodes (ignoring the bad byte) to 3 characters = 1 heuristic token,
and is merged as a FileRecord with 1 token. -/
theorem claim10_decode_total_records_file_witness :
    (decode_text [0xFF, 97, 98, 99] = utf8DecodeIgnore [0xFF, 97, 98, 99])
    ∧ ∃ rec entry,
        mergeTaskResult "a.py" ⟨4, 0⟩
            (process_file_task (some [0xFF, 97, 98, 99]) "heuristic"
              (fun _ => none) "mtime" 50000) = .inr (rec, entry)
        ∧ rec.tokens = count_tokens (fun _ => none) "heuristic"
            (decode_text [0xFF, 97, 98, 99]) := by
  have h := claim10_decode_total_records_file [0xFF, 97, 98, 99] "heuristic"
    (fun _ => none) "mtime" 50000 "a.py" ⟨4, 0⟩
  exact ⟨h.1 (by decide), h.2 (by decide) (by decide)⟩

end Scan
